import Mathlib

/-!
# Tabito.API — verification of the tabular-document mutation engine

Shallow embedding of the table engine of the Tabito.API repository.
The repository holds two near-identical implementations of the same logic
(src/main.py and src/functions/main.py); the specification (§9) declares the
merged contract of its §4 canonical and discards the duplicate.  That
canonical contract coincides with src/functions/main.py on every point where
the two files diverge (whitespace-trimming in the boolean coercion, the
create-time validation of Name/Columns, the required-field checks on
column/row operations), so the definitions below embed the handler bodies of
src/functions/main.py.  Authentication, CORS/HTTP adaptation and the
document-store transport are external plumbing (spec §1) and are not
modelled: each handler is embedded as a pure function from the loaded table
document and the request fields to either an error result (in which case the
source writes nothing back) or the new table document that the source writes
back.  The table-not-found path lives in that external lookup and is outside
the embedded functions, which therefore model the behaviour on an existing
table — the scope of every claim.

Python dictionaries are modelled as association lists in insertion order
(`Dict`), with `dictSet` giving the replace-or-append semantics of
`d[key] = val`, `dictUpdate` the iterated sets of `d.update(u)`, and
`dictPop` the removal of `row.pop(key, None)`.  Python `str.strip()` /
`str.lower()` are modelled by `pyStrip` / `pyLower`, defined below over the
character list (the ASCII whitespace set and ASCII case-folding of CPython;
non-ASCII case mappings are outside the model).
Row-field values are the tagged union of spec §3 (boolean, number, string,
null); nesting is not needed by any claim.
-/

/-- A dynamic value stored in a row field (spec §3: boolean, number, string,
null). -/
inductive Val where
  | null : Val
  | bool (b : Bool) : Val
  | num (n : Int) : Val
  | str (s : String) : Val
deriving DecidableEq, Repr

/-- A Python dict in insertion order: keys are strings (column keys,
attribute names), values are dynamic. -/
abbrev Dict := List (String × Val)

/-- Python `d[k] = v`: replace the entry for `k` in place if present,
otherwise append it at the end. -/
def dictSet (d : Dict) (k : String) (v : Val) : Dict :=
  if k ∈ d.map Prod.fst then
    d.map (fun p => if p.1 = k then (k, v) else p)
  else
    d ++ [(k, v)]

/-- Python `d.update(u)`: set each entry of `u` in order. -/
def dictUpdate (d u : Dict) : Dict :=
  u.foldl (fun acc p => dictSet acc p.1 p.2) d

/-- Python `d.pop(k, None)` / `del d[k]`: drop the entry for `k`. -/
def dictPop (d : Dict) (k : String) : Dict :=
  d.filter (fun p => p.1 ≠ k)

/-- First-match lookup, the read semantics of a Python dict under the
no-duplicate-keys invariant every dict built by `dictSet` maintains. -/
def dictLookup (d : Dict) (k : String) : Option Val :=
  match d with
  | [] => none
  | p :: rest => if p.1 = k then some p.2 else dictLookup rest k

/-- A column of a table: a required string `Key` (spec §3, invariant I1)
plus an open mapping of remaining attributes. -/
structure Column where
  Key : String
  attrs : Dict := []
deriving DecidableEq, Repr

/-- Python `col.update(updates)` inside update_column: every supplied entry
is set on the column's dict; an entry under the name of the key field
reassigns the column's `Key` (spec §4.3 notes the payload may reassign it).
Keys are strings per the data model, so a non-string value supplied for the
key field is outside the model and leaves `Key` unchanged. -/
def Column.merge (c : Column) (u : Dict) : Column :=
  let attrsNew := dictUpdate c.attrs (u.filter (fun p => p.1 ≠ "Key"))
  match dictLookup u "Key" with
  | some (Val.str s) => { Key := s, attrs := attrsNew }
  | _ => { Key := c.Key, attrs := attrsNew }

/-- The whitespace set of Python `str.strip()` (space, tab, newline,
carriage return, vertical tab, form feed). -/
def isPySpace (c : Char) : Bool :=
  c == ' ' || c == '\t' || c == '\n' || c == '\r' || c == '\x0b' || c == '\x0c'

/-- ASCII case folding of a single character, as Python `str.lower()` acts
on the ASCII range. -/
def asciiLower (c : Char) : Char :=
  if 'A' ≤ c ∧ c ≤ 'Z' then Char.ofNat (c.toNat + 32) else c

/-- Python `s.strip()`: drop leading and trailing whitespace. -/
def pyStrip (s : String) : String :=
  ⟨((s.data.dropWhile isPySpace).reverse.dropWhile isPySpace).reverse⟩

/-- Python `s.lower()` on ASCII text. -/
def pyLower (s : String) : String :=
  ⟨s.data.map asciiLower⟩

/-- The boolean coercion of map_row_values (src/functions/main.py lines
49–50): a string whose stripped, lower-cased form is exactly "true" or
"false" becomes the corresponding boolean; everything else is unchanged. -/
def coerceVal (v : Val) : Val :=
  match v with
  | Val.str s =>
      if pyLower (pyStrip s) = "true" then Val.bool true
      else if pyLower (pyStrip s) = "false" then Val.bool false
      else Val.str s
  | v => v

/-- The loop of map_row_values: `for i, col in enumerate(columns)`, carrying
the accumulator dict and the running index, setting
`mapped[col["Key"]] = coerced (values[i] if i < len(values) else None)`. -/
def mapRowAux (values : List Val) : Dict → Nat → List Column → Dict
  | mapped, _, [] => mapped
  | mapped, i, col :: rest =>
      mapRowAux values (dictSet mapped col.Key (coerceVal (values.getD i Val.null))) (i + 1) rest

/-- map_row_values (src/functions/main.py lines 42–52): convert a positional
value list into a keyed row record using the column order. -/
def map_row_values (columns : List Column) (values : List Val) : Dict :=
  mapRowAux values [] 0 columns

/-- A table document as stored (src/functions/main.py lines 93–100); the
store-generated id and the timestamps live outside the mutation logic. -/
structure Table where
  Name : String
  Columns : List Column
  Rows : List Dict
  Metadata : Dict
deriving DecidableEq, Repr

/-- A create_table request: `data.get("Name")` (absent ⇒ None),
`data.get("Columns", [])`, `data.get("Rows", [])` where each row record
contributes `row.get("Values", [])`, and `data.get("Metadata", {})`. -/
structure CreateReq where
  Name : Option String := none
  Columns : List Column := []
  Rows : List (List Val) := []
  Metadata : Dict := []

/-- create_table (src/functions/main.py lines 81–102): reject when Name or
Columns is empty/absent (Python falsiness), else build the table with the
Mapper applied to each supplied Values record in order. -/
def create_table (data : CreateReq) : Except String Table :=
  let name := data.Name.getD ""
  if name = "" ∨ data.Columns = [] then
    Except.error "Name y Columns son requeridos"
  else
    Except.ok
      { Name := name
        Columns := data.Columns
        Rows := data.Rows.map (fun vs => map_row_values data.Columns vs)
        Metadata := data.Metadata }

/-- add_column (src/functions/main.py lines 187–202): reject an
absent/empty column, else append it to Columns; no duplicate-Key check
appears in the source. -/
def add_column (t : Table) (column : Option Column) : Except String Table :=
  match column with
  | none => Except.error "column es requerido"
  | some c => Except.ok { t with Columns := t.Columns ++ [c] }

/-- The `for col in columns: if col["Key"] == key: col.update(updates);
break` loop of update_column: merge the updates into the first column whose
Key matches and leave the rest untouched. -/
def updateColumnsList (columns : List Column) (key : String) (updates : Dict) : List Column :=
  match columns with
  | [] => []
  | c :: rest =>
      if c.Key = key then Column.merge c updates :: rest
      else c :: updateColumnsList rest key updates

/-- update_column (src/functions/main.py lines 214–233): an empty/absent
columnKey is rejected; otherwise the first matching column (if any) is
merged in place and the columns array is written back. -/
def update_column (t : Table) (key : String) (updates : Dict) : Except String Table :=
  if key = "" then Except.error "columnKey es requerido"
  else Except.ok { t with Columns := updateColumnsList t.Columns key updates }

/-- delete_column (src/functions/main.py lines 245–265): an empty/absent
columnKey is rejected; otherwise every column whose Key matches is filtered
out and the field under that key is popped from every row. -/
def delete_column (t : Table) (key : String) : Except String Table :=
  if key = "" then Except.error "columnKey es requerido"
  else
    Except.ok
      { t with
        Columns := t.Columns.filter (fun c => c.Key ≠ key)
        Rows := t.Rows.map (fun r => dictPop r key) }

/-- add_row (src/functions/main.py lines 280–295): reject an empty/absent
row record (Python falsiness of `row`), else append it unchanged to Rows;
no validation of its keys against Columns appears in the source. -/
def add_row (t : Table) (row : Dict) : Except String Table :=
  if row = [] then Except.error "row son requeridos"
  else Except.ok { t with Rows := t.Rows ++ [row] }

/-- update_row (src/functions/main.py lines 307–326): a missing rowIndex is
rejected; an index < 0 or ≥ len(Rows) is out of range; otherwise the
supplied fields are dict-merged into the row at that position. -/
def update_row (t : Table) (index : Option Int) (updates : Dict) : Except String Table :=
  match index with
  | none => Except.error "rowIndex son requeridos"
  | some i =>
      if i < 0 ∨ (t.Rows.length : Int) ≤ i then Except.error "Row index out of range"
      else
        Except.ok
          { t with Rows := t.Rows.set i.toNat (dictUpdate (t.Rows.getD i.toNat []) updates) }

/-- delete_row (src/functions/main.py lines 338–356): same bounds protocol
as update_row; `rows.pop(index)` removes the row at that position, shifting
the rest down. -/
def delete_row (t : Table) (index : Option Int) : Except String Table :=
  match index with
  | none => Except.error "rowIndex son requeridos"
  | some i =>
      if i < 0 ∨ (t.Rows.length : Int) ≤ i then Except.error "Row index out of range"
      else Except.ok { t with Rows := t.Rows.eraseIdx i.toNat }

/-! ## Dictionary lemmas -/

theorem dictLookup_eq_none_iff (d : Dict) (k : String) :
    dictLookup d k = none ↔ ∀ p ∈ d, p.1 ≠ k := by
  induction d with
  | nil => simp [dictLookup]
  | cons p rest ih =>
    by_cases hp : p.1 = k
    · simp [dictLookup, hp]
    · simp [dictLookup, hp, ih]

theorem dictLookup_isSome_iff (d : Dict) (k : String) :
    (dictLookup d k).isSome ↔ k ∈ d.map Prod.fst := by
  induction d with
  | nil => simp [dictLookup]
  | cons p rest ih =>
    by_cases hp : p.1 = k
    · simp [dictLookup, hp]
    · simp [dictLookup, hp, ih, Ne.symm hp]

theorem dictLookup_append (d e : Dict) (k : String) :
    dictLookup (d ++ e) k =
      match dictLookup d k with
      | some v => some v
      | none => dictLookup e k := by
  induction d with
  | nil => simp [dictLookup]
  | cons p rest ih =>
    by_cases hp : p.1 = k
    · simp [dictLookup, hp]
    · simp [dictLookup, hp, ih]

theorem dictLookup_replaceMap_self (d : Dict) (k : String) (v : Val)
    (h : k ∈ d.map Prod.fst) :
    dictLookup (d.map (fun p => if p.1 = k then (k, v) else p)) k = some v := by
  induction d with
  | nil => simp at h
  | cons p rest ih =>
    by_cases hp : p.1 = k
    · simp [dictLookup, hp]
    · have hr : k ∈ rest.map Prod.fst := by
        simp only [List.map_cons, List.mem_cons] at h
        exact h.resolve_left (fun hh => hp hh.symm)
      simp [dictLookup, hp, ih hr]

theorem dictLookup_replaceMap_ne (d : Dict) (k k' : String) (v : Val)
    (h : k' ≠ k) :
    dictLookup (d.map (fun p => if p.1 = k then (k, v) else p)) k'
      = dictLookup d k' := by
  induction d with
  | nil => simp
  | cons p rest ih =>
    by_cases hp : p.1 = k
    · have : k ≠ k' := fun hh => h hh.symm
      simp [dictLookup, hp, this, hp ▸ this, ih]
    · simp [dictLookup, hp, ih]

theorem dictLookup_dictSet_self (d : Dict) (k : String) (v : Val) :
    dictLookup (dictSet d k v) k = some v := by
  unfold dictSet
  by_cases h : k ∈ d.map Prod.fst
  · simpa [h] using dictLookup_replaceMap_self d k v h
  · have hnone : dictLookup d k = none :=
      (dictLookup_eq_none_iff d k).mpr (by
        intro p hp hk
        exact h (List.mem_map.mpr ⟨p, hp, hk⟩))
    simp [h, dictLookup_append, hnone, dictLookup]

theorem dictLookup_dictSet_ne (d : Dict) (k k' : String) (v : Val)
    (h : k' ≠ k) :
    dictLookup (dictSet d k v) k' = dictLookup d k' := by
  unfold dictSet
  by_cases hm : k ∈ d.map Prod.fst
  · simpa [hm] using dictLookup_replaceMap_ne d k k' v h
  · simp only [hm, if_false, dictLookup_append]
    cases hd : dictLookup d k' with
    | some w => simp
    | none =>
        simp only [dictLookup]
        rw [if_neg (fun hh => h hh.symm)]

theorem dictSet_keys (d : Dict) (k : String) (v : Val) :
    (dictSet d k v).map Prod.fst =
      if k ∈ d.map Prod.fst then d.map Prod.fst else d.map Prod.fst ++ [k] := by
  unfold dictSet
  by_cases h : k ∈ d.map Prod.fst
  · simp only [h, if_true, List.map_map]
    refine List.map_congr_left ?_
    intro p _
    by_cases hp : p.1 = k
    · simp [Function.comp, hp]
    · simp [Function.comp, hp]
  · simp [h]

theorem dictSet_of_not_mem (d : Dict) (k : String) (v : Val)
    (h : k ∉ d.map Prod.fst) :
    dictSet d k v = d ++ [(k, v)] := by
  simp [dictSet, h]

theorem dictLookup_dictPop_self (d : Dict) (k : String) :
    dictLookup (dictPop d k) k = none := by
  induction d with
  | nil => simp [dictPop, dictLookup]
  | cons p rest ih =>
    by_cases hp : p.1 = k
    · simpa [dictPop, List.filter_cons, hp] using ih
    · simpa [dictPop, List.filter_cons, hp, dictLookup] using ih

theorem dictPop_of_lookup_none (d : Dict) (k : String)
    (h : dictLookup d k = none) :
    dictPop d k = d := by
  rw [dictLookup_eq_none_iff] at h
  unfold dictPop
  refine List.filter_eq_self.mpr ?_
  intro p hp
  simpa using h p hp

/-! ## Mapper lemmas -/

theorem mapRowAux_lookup_of_not_mem (values : List Val) (columns : List Column)
    (k : String) (h : k ∉ columns.map Column.Key) :
    ∀ (d : Dict) (i : Nat),
      dictLookup (mapRowAux values d i columns) k = dictLookup d k := by
  induction columns with
  | nil => intro d i; rfl
  | cons c rest ih =>
    intro d i
    simp only [List.map_cons, List.mem_cons] at h
    push_neg at h
    simp only [mapRowAux]
    rw [ih h.2, dictLookup_dictSet_ne _ _ _ _ h.1]

theorem mapRowAux_lookup_at (values : List Val) (columns : List Column)
    (hnd : (columns.map Column.Key).Nodup) :
    ∀ (d : Dict) (i j : Nat) (hj : j < columns.length),
      dictLookup (mapRowAux values d i columns) (columns.get ⟨j, hj⟩).Key
        = some (coerceVal (values.getD (i + j) Val.null)) := by
  induction columns with
  | nil => intro d i j hj; exact absurd hj (Nat.not_lt_zero j)
  | cons c rest ih =>
    intro d i j hj
    simp only [List.map_cons, List.nodup_cons] at hnd
    cases j with
    | zero =>
      simp only [mapRowAux, List.get]
      rw [mapRowAux_lookup_of_not_mem values rest c.Key hnd.1 _ _,
        dictLookup_dictSet_self]
      simp
    | succ j' =>
      simp only [mapRowAux, List.get]
      have e : i + (j' + 1) = (i + 1) + j' := by omega
      rw [e]
      exact ih hnd.2 _ (i + 1) j'
        (by simp only [List.length_cons] at hj; omega)

theorem mapRowAux_keys (values : List Val) (columns : List Column)
    (hnd : (columns.map Column.Key).Nodup) :
    ∀ (d : Dict) (i : Nat), (∀ c ∈ columns, c.Key ∉ d.map Prod.fst) →
      (mapRowAux values d i columns).map Prod.fst
        = d.map Prod.fst ++ columns.map Column.Key := by
  induction columns with
  | nil => intro d i _; simp [mapRowAux]
  | cons c rest ih =>
    intro d i hfresh
    simp only [List.map_cons, List.nodup_cons] at hnd
    simp only [mapRowAux]
    have hc : c.Key ∉ d.map Prod.fst := hfresh c (List.mem_cons_self c rest)
    have hkeys : (dictSet d c.Key (coerceVal (values.getD i Val.null))).map Prod.fst
        = d.map Prod.fst ++ [c.Key] := by
      rw [dictSet_keys, if_neg hc]
    rw [ih hnd.2 _ (i + 1) ?fresh, hkeys]
    · simp
    case fresh =>
      intro c' hc'
      rw [hkeys]
      simp only [List.mem_append, List.mem_singleton]
      push_neg
      refine ⟨hfresh c' (List.mem_cons_of_mem _ hc'), ?_⟩
      intro hkey
      exact hnd.1 (hkey ▸ List.mem_map.mpr ⟨c', hc', rfl⟩)

theorem map_row_values_lookup (columns : List Column) (values : List Val)
    (hnd : (columns.map Column.Key).Nodup) (j : Nat) (hj : j < columns.length) :
    dictLookup (map_row_values columns values) (columns.get ⟨j, hj⟩).Key
      = some (coerceVal (values.getD j Val.null)) := by
  have h := mapRowAux_lookup_at values columns hnd [] 0 j hj
  simpa [map_row_values] using h

theorem map_row_values_keys (columns : List Column) (values : List Val)
    (hnd : (columns.map Column.Key).Nodup) :
    (map_row_values columns values).map Prod.fst = columns.map Column.Key := by
  have h := mapRowAux_keys values columns hnd [] 0 (by simp)
  simpa [map_row_values] using h

/-! ## update_column loop lemmas -/

theorem updateColumnsList_length (columns : List Column) (key : String) (updates : Dict) :
    (updateColumnsList columns key updates).length = columns.length := by
  induction columns with
  | nil => rfl
  | cons c rest ih =>
    simp only [updateColumnsList]
    by_cases h : c.Key = key <;> simp [h, ih]

theorem updateColumnsList_no_match (columns : List Column) (key : String) (updates : Dict)
    (h : ∀ c ∈ columns, c.Key ≠ key) :
    updateColumnsList columns key updates = columns := by
  induction columns with
  | nil => rfl
  | cons c rest ih =>
    simp only [updateColumnsList]
    rw [if_neg (h c (List.mem_cons_self c rest)),
      ih (fun c' hc' => h c' (List.mem_cons_of_mem _ hc'))]

theorem updateColumnsList_first_match (columns : List Column) (key : String) (updates : Dict) :
    ∀ (j : Nat) (hj : j < columns.length),
      (∀ m (hm : m < columns.length), m < j → (columns.get ⟨m, hm⟩).Key ≠ key) →
      (columns.get ⟨j, hj⟩).Key = key →
      ∀ m : Nat,
        (updateColumnsList columns key updates)[m]? =
          if m = j then some (Column.merge (columns.get ⟨j, hj⟩) updates)
          else columns[m]? := by
  induction columns with
  | nil => intro j hj; exact absurd hj (Nat.not_lt_zero j)
  | cons c rest ih =>
    intro j hj hfirst hmatch m
    cases j with
    | zero =>
      simp only [List.get] at hmatch
      simp only [updateColumnsList, if_pos hmatch]
      cases m with
      | zero => simp [List.get]
      | succ m' => simp
    | succ j'' =>
      have hc : c.Key ≠ key := by
        have h0 := hfirst 0 (by simp) (by omega)
        simpa [List.get] using h0
      simp only [updateColumnsList, if_neg hc]
      cases m with
      | zero => simp
      | succ m' =>
        simp only [List.getElem?_cons_succ]
        have hj'' : j'' < rest.length := by
          simp only [List.length_cons] at hj; omega
        have hfirst' : ∀ mm (hmm : mm < rest.length), mm < j'' →
            (rest.get ⟨mm, hmm⟩).Key ≠ key := by
          intro mm hmm hlt
          have h1 := hfirst (mm + 1) (by simp only [List.length_cons]; omega) (by omega)
          simpa [List.get] using h1
        have hmatch' : (rest.get ⟨j'', hj''⟩).Key = key := by
          simpa [List.get] using hmatch
        rw [ih j'' hj'' hfirst' hmatch' m']
        by_cases he : m' = j''
        · simp [he, List.get]
        · have hne : ¬(m' + 1 = j'' + 1) := by omega
          simp [he, hne]

/-! ## Claim theorems -/

/-- C1: the claim states that add_column rejects (or rejects-and-no-ops) a
request whose column Key equals the Key of an existing column, so that
column Keys stay pairwise distinct (invariant I1).  The source performs no
such check — evaluated on a table whose only column has Key "a", adding
another column with Key "a" succeeds and leaves two columns with the same
Key, violating I1.  The spec itself flags the missing check as a defect of
the source (§4.3, §9), so the claim is the intent and the code the slip. -/
theorem C1_add_column_appends_duplicate_key :
    add_column
        { Name := "T", Columns := [{ Key := "a" }], Rows := [], Metadata := [] }
        (some { Key := "a" })
      = Except.ok
          { Name := "T", Columns := [{ Key := "a" }, { Key := "a" }],
            Rows := [], Metadata := [] }
    ∧ ¬ (List.map Column.Key [{ Key := "a" }, { Key := "a" }]).Nodup := by
  exact ⟨rfl, by decide⟩

/-- C2: for every well-formed ordered column list (Keys pairwise distinct,
as the data model §3 / invariant I1 requires) and every value list, the
Mapper's field for the Key of the i-th column is the (possibly
boolean-coerced, per the claim's source sentence) value at position i when
i < len(values) and null otherwise, and the output's keys are exactly the
columns' Keys in order — so raw values at positions ≥ len(columns) are
silently dropped. -/
theorem C2_map_row_values_positional (columns : List Column) (values : List Val)
    (hnd : (columns.map Column.Key).Nodup) :
    (∀ (j : Nat) (hj : j < columns.length),
        dictLookup (map_row_values columns values) (columns.get ⟨j, hj⟩).Key
          = some (coerceVal
              (if h : j < values.length then values.get ⟨j, h⟩ else Val.null)))
    ∧ (map_row_values columns values).map Prod.fst = columns.map Column.Key := by
  constructor
  · intro j hj
    rw [map_row_values_lookup columns values hnd j hj]
    congr 1
    by_cases h : j < values.length
    · simp [List.getD, List.getElem?_eq_getElem h, h]
    · rw [dif_neg h]
      simp [List.getD, List.getElem?_eq_none (by omega : values.length ≤ j)]
  · exact map_row_values_keys columns values hnd

/-- Witness for C2 at columns [a, b] and values ["x"]: field a is the
string "x", field b (beyond the values) is null, and with three values the
output keys are still exactly [a, b] (the third value is dropped). -/
theorem C2_map_row_values_positional_witness :
    dictLookup (map_row_values [{ Key := "a" }, { Key := "b" }] [Val.str "x"]) "a"
      = some (Val.str "x")
    ∧ dictLookup (map_row_values [{ Key := "a" }, { Key := "b" }] [Val.str "x"]) "b"
      = some Val.null
    ∧ (map_row_values [{ Key := "a" }, { Key := "b" }]
        [Val.str "x", Val.num 1, Val.num 2]).map Prod.fst = ["a", "b"] := by
  refine ⟨?_, ?_, ?_⟩
  · exact ((C2_map_row_values_positional [{ Key := "a" }, { Key := "b" }]
      [Val.str "x"] (by decide)).1 0 (by decide)).trans (by decide)
  · exact ((C2_map_row_values_positional [{ Key := "a" }, { Key := "b" }]
      [Val.str "x"] (by decide)).1 1 (by decide)).trans (by decide)
  · exact ((C2_map_row_values_positional [{ Key := "a" }, { Key := "b" }]
      [Val.str "x", Val.num 1, Val.num 2] (by decide)).2).trans (by decide)

/-- C3: at every position carrying a raw value, a string whose trimmed,
lower-cased form is exactly "true" or "false" comes out as the
corresponding boolean, and every other value (numeric strings, non-strings)
comes out unchanged; column Keys are assumed pairwise distinct (I1). -/
theorem C3_map_row_values_boolean_coercion (columns : List Column) (values : List Val)
    (hnd : (columns.map Column.Key).Nodup)
    (j : Nat) (hj : j < columns.length) (hv : j < values.length) :
    dictLookup (map_row_values columns values) (columns.get ⟨j, hj⟩).Key
      = some (match values.get ⟨j, hv⟩ with
          | Val.str s =>
              if pyLower (pyStrip s) = "true" then Val.bool true
              else if pyLower (pyStrip s) = "false" then Val.bool false
              else Val.str s
          | v => v) := by
  rw [map_row_values_lookup columns values hnd j hj]
  have hd : values.getD j Val.null = values.get ⟨j, hv⟩ := by
    simp [List.getD, List.getElem?_eq_getElem hv]
  rw [hd]
  congr 1

/-- Four columns a, b, c, d — a concrete well-formed schema for witnesses. -/
def colsABCD : List Column :=
  [{ Key := "a" }, { Key := "b" }, { Key := "c" }, { Key := "d" }]

/-- A concrete mixed value list exercising every coercion case. -/
def valsMix : List Val :=
  [Val.str " TRUE ", Val.str "false", Val.str "x", Val.num 7]

/-- Witness for C3 at values [" TRUE ", "false", "x", 7]: the padded
upper-case string coerces to true, "false" to false, while the plain string
and the number pass through unchanged. -/
theorem C3_map_row_values_boolean_coercion_witness :
    dictLookup (map_row_values colsABCD valsMix) "a" = some (Val.bool true)
    ∧ dictLookup (map_row_values colsABCD valsMix) "b" = some (Val.bool false)
    ∧ dictLookup (map_row_values colsABCD valsMix) "c" = some (Val.str "x")
    ∧ dictLookup (map_row_values colsABCD valsMix) "d" = some (Val.num 7) := by
  refine ⟨?_, ?_, ?_, ?_⟩
  · exact (C3_map_row_values_boolean_coercion colsABCD valsMix
      (by decide) 0 (by decide) (by decide)).trans (by decide)
  · exact (C3_map_row_values_boolean_coercion colsABCD valsMix
      (by decide) 1 (by decide) (by decide)).trans (by decide)
  · exact (C3_map_row_values_boolean_coercion colsABCD valsMix
      (by decide) 2 (by decide) (by decide)).trans (by decide)
  · exact (C3_map_row_values_boolean_coercion colsABCD valsMix
      (by decide) 3 (by decide) (by decide)).trans (by decide)

/-- C4: create_table fails with the validation error exactly when Name is
empty/absent or Columns is empty/absent (and then no table is produced —
in this embedding an error result writes nothing); otherwise it produces a
table whose Rows are the Mapper images of the supplied Values records, one
per record, in input order. -/
theorem C4_create_table_validation (req : CreateReq) :
    (create_table req = Except.error "Name y Columns son requeridos"
        ↔ (req.Name.getD "" = "" ∨ req.Columns = []))
    ∧ (req.Name.getD "" ≠ "" → req.Columns ≠ [] →
        create_table req = Except.ok
          { Name := req.Name.getD ""
            Columns := req.Columns
            Rows := req.Rows.map (fun vs => map_row_values req.Columns vs)
            Metadata := req.Metadata }) := by
  constructor
  · constructor
    · intro h
      by_contra hc
      push_neg at hc
      simp [create_table, hc.1, hc.2] at h
    · intro h
      simp only [create_table]
      rw [if_pos h]
  · intro h1 h2
    simp only [create_table]
    rw [if_neg (by push_neg; exact ⟨h1, h2⟩)]

/-- Witness for C4: an empty Name is rejected; a well-formed request with
one column and one Values record ["true"] produces a single row
coerced to a boolean. -/
theorem C4_create_table_validation_witness :
    create_table { Name := some "", Columns := [{ Key := "x" }] }
      = Except.error "Name y Columns son requeridos"
    ∧ create_table
        { Name := some "T", Columns := [{ Key := "x" }], Rows := [[Val.str "true"]] }
      = Except.ok
          { Name := "T", Columns := [{ Key := "x" }],
            Rows := [[("x", Val.bool true)]], Metadata := [] } := by
  constructor
  · exact (C4_create_table_validation
      { Name := some "", Columns := [{ Key := "x" }] }).1.mpr (Or.inl rfl)
  · exact ((C4_create_table_validation
      { Name := some "T", Columns := [{ Key := "x" }], Rows := [[Val.str "true"]] }).2
      (by decide) (by decide)).trans (congrArg Except.ok (by decide))

/-- C5: on any existing table, an index < 0 or ≥ len(Rows) makes both
update_row and delete_row return the out-of-range error (an error result
writes nothing back, so Rows and all other fields are untouched); an
in-range index makes update_row dict-merge the supplied fields into exactly
the row at that zero-based position (all other rows and all other table
fields unchanged) and makes delete_row remove exactly that row, shifting
the following rows down by one. -/
theorem C5_row_index_bounds (t : Table) (i : Int) (updates : Dict) :
    ((i < 0 ∨ (t.Rows.length : Int) ≤ i) →
        update_row t (some i) updates = Except.error "Row index out of range"
        ∧ delete_row t (some i) = Except.error "Row index out of range")
    ∧ (0 ≤ i → i < (t.Rows.length : Int) →
        (∀ t', update_row t (some i) updates = Except.ok t' →
          t'.Name = t.Name ∧ t'.Columns = t.Columns ∧ t'.Metadata = t.Metadata
          ∧ t'.Rows.length = t.Rows.length
          ∧ (∀ r, t.Rows[i.toNat]? = some r →
              t'.Rows[i.toNat]? = some (dictUpdate r updates))
          ∧ (∀ j : Nat, j ≠ i.toNat → t'.Rows[j]? = t.Rows[j]?))
        ∧ (∀ t'', delete_row t (some i) = Except.ok t'' →
          t''.Name = t.Name ∧ t''.Columns = t.Columns ∧ t''.Metadata = t.Metadata
          ∧ t''.Rows.length = t.Rows.length - 1
          ∧ (∀ j : Nat, j < i.toNat → t''.Rows[j]? = t.Rows[j]?)
          ∧ (∀ j : Nat, i.toNat ≤ j → t''.Rows[j]? = t.Rows[j + 1]?))) := by
  constructor
  · intro h
    constructor
    · simp only [update_row]
      rw [if_pos h]
    · simp only [delete_row]
      rw [if_pos h]
  · intro h0 hlt
    have hcond : ¬(i < 0 ∨ (t.Rows.length : Int) ≤ i) := by omega
    have hni : i.toNat < t.Rows.length := by omega
    constructor
    · intro t' ht'
      simp only [update_row] at ht'
      rw [if_neg hcond] at ht'
      cases Except.ok.inj ht'
      refine ⟨rfl, rfl, rfl, List.length_set t.Rows _ _, ?_, ?_⟩
      · intro r hr
        have hg : t.Rows.getD i.toNat [] = r := by
          simp [List.getD, hr]
        rw [List.getElem?_set_self (by simpa using hni), hg]
      · intro j hj
        exact List.getElem?_set_ne (fun hh => hj hh.symm)
    · intro t'' ht''
      simp only [delete_row] at ht''
      rw [if_neg hcond] at ht''
      cases Except.ok.inj ht''
      refine ⟨rfl, rfl, rfl, ?_, ?_, ?_⟩
      · rw [List.length_eraseIdx, if_pos hni]
      · intro j hj
        rw [List.getElem?_eraseIdx, if_pos hj]
      · intro j hj
        rw [List.getElem?_eraseIdx, if_neg (by omega)]

/-- A concrete two-row table for the row-operation witnesses. -/
def T2 : Table :=
  { Name := "T", Columns := [{ Key := "a" }],
    Rows := [[("a", Val.num 1)], [("a", Val.num 2)]], Metadata := [] }

/-- The table T2 after merging a = 9 into its first row. -/
def T2up : Table :=
  { Name := "T", Columns := [{ Key := "a" }],
    Rows := [[("a", Val.num 9)], [("a", Val.num 2)]], Metadata := [] }

/-- The table T2 after deleting its first row. -/
def T2del : Table :=
  { Name := "T", Columns := [{ Key := "a" }],
    Rows := [[("a", Val.num 2)]], Metadata := [] }

/-- Witness for C5 on the two-row table T2: index 2 and index -1 are
rejected by update_row and delete_row, an in-range update merges into row 0
only, and an in-range delete shifts row 1 down to position 0. -/
theorem C5_row_index_bounds_witness :
    update_row T2 (some 2) [("a", Val.num 9)] = Except.error "Row index out of range"
    ∧ delete_row T2 (some (-1)) = Except.error "Row index out of range"
    ∧ T2up.Rows[0]? = some (dictUpdate [("a", Val.num 1)] [("a", Val.num 9)])
    ∧ T2up.Rows[1]? = T2.Rows[1]?
    ∧ T2del.Rows.length = T2.Rows.length - 1
    ∧ T2del.Rows[0]? = T2.Rows[1]? := by
  have hup := ((C5_row_index_bounds T2 0 [("a", Val.num 9)]).2 (by decide)
      (by decide)).1 T2up rfl
  have hdel := ((C5_row_index_bounds T2 0 []).2 (by decide) (by decide)).2
      T2del rfl
  refine ⟨?_, ?_, ?_, ?_, ?_, ?_⟩
  · exact ((C5_row_index_bounds T2 2 [("a", Val.num 9)]).1 (by decide)).1
  · exact ((C5_row_index_bounds T2 (-1) []).1 (by decide)).2
  · exact hup.2.2.2.2.1 [("a", Val.num 1)] (by decide)
  · exact hup.2.2.2.2.2 1 (by decide)
  · exact hdel.2.2.2.1
  · exact hdel.2.2.2.2.2 0 (by decide)

/-- A one-column table with Key "a" and no rows. -/
def Tkeys : Table :=
  { Name := "T", Columns := [{ Key := "a" }], Rows := [], Metadata := [] }

/-- A table whose single row carries a stale key "b" that no column has. -/
def Tstale : Table :=
  { Name := "T", Columns := [{ Key := "a" }],
    Rows := [[("b", Val.num 1)]], Metadata := [] }

/-- C6 counterexample: the claim quantifies over every columnKey and says a
key matching no column changes nothing and still returns success.  (1) For
the empty columnKey — which matches no column of Tkeys — the source returns
the validation error "columnKey es requerido" (spec §7 lists the missing
columnKey as a ValidationError), not success.  (2) For key "b" on Tstale,
no column has Key "b", yet the row cleanup still strips the stale "b" field
from the row, so the operation does not change nothing. -/
theorem C6_delete_column_counterexample :
    (delete_column Tkeys "" = Except.error "columnKey es requerido"
      ∧ "" ∉ Tkeys.Columns.map Column.Key)
    ∧ (delete_column Tstale "b"
        = Except.ok
            { Name := "T", Columns := [{ Key := "a" }], Rows := [[]], Metadata := [] }
      ∧ "b" ∉ Tstale.Columns.map Column.Key
      ∧ ({ Name := "T", Columns := [{ Key := "a" }], Rows := [[]],
            Metadata := [] } : Table) ≠ Tstale) := by
  exact ⟨⟨rfl, by decide⟩, ⟨rfl, by decide, by decide⟩⟩

/-- C6 (amended): for every existing table and every non-empty columnKey,
delete_column succeeds, removes every column whose Key matches (keeping all
others), removes the field under that Key from every row, and leaves Name,
Metadata and the row count unchanged; when no column has that Key and no
row carries it (as invariant I2 guarantees for well-formed tables), the
table is returned entirely unchanged. -/
theorem C6_delete_column_cascade (t : Table) (key : String) (hk : key ≠ "") :
    (∃ td, delete_column t key = Except.ok td)
    ∧ ∀ td, delete_column t key = Except.ok td →
        (∀ c ∈ td.Columns, c.Key ≠ key)
        ∧ (∀ c ∈ td.Columns, c ∈ t.Columns)
        ∧ (∀ c ∈ t.Columns, c.Key ≠ key → c ∈ td.Columns)
        ∧ (∀ r ∈ td.Rows, dictLookup r key = none)
        ∧ td.Rows.length = t.Rows.length
        ∧ td.Name = t.Name ∧ td.Metadata = t.Metadata
        ∧ ((∀ c ∈ t.Columns, c.Key ≠ key) → (∀ r ∈ t.Rows, dictLookup r key = none) →
            td = t) := by
  have hok : delete_column t key
      = Except.ok
          { Name := t.Name
            Columns := t.Columns.filter (fun c => c.Key ≠ key)
            Rows := t.Rows.map (fun r => dictPop r key)
            Metadata := t.Metadata } := by
    simp only [delete_column]
    rw [if_neg hk]
  refine ⟨⟨_, hok⟩, ?_⟩
  intro td htd
  cases Except.ok.inj (hok.symm.trans htd)
  refine ⟨?_, ?_, ?_, ?_, by simp, rfl, rfl, ?_⟩
  · intro c hc
    have hm := List.mem_filter.mp hc
    simpa using hm.2
  · intro c hc
    exact List.mem_of_mem_filter hc
  · intro c hc hkey
    exact List.mem_filter.mpr ⟨hc, by simpa using hkey⟩
  · intro r hr
    obtain ⟨r0, _, rfl⟩ := List.mem_map.mp hr
    exact dictLookup_dictPop_self r0 key
  · intro hcols hrows
    have e1 : t.Columns.filter (fun c => c.Key ≠ key) = t.Columns :=
      List.filter_eq_self.mpr (fun c hc => by simpa using hcols c hc)
    have e2 : t.Rows.map (fun r => dictPop r key) = t.Rows := by
      rw [List.map_congr_left
        (fun r hr => dictPop_of_lookup_none r key (hrows r hr))]
      exact List.map_id t.Rows
    rw [e1, e2]

/-- A two-column table whose row has fields under both keys. -/
def Tc6 : Table :=
  { Name := "T", Columns := [{ Key := "a" }, { Key := "b" }],
    Rows := [[("a", Val.num 1), ("b", Val.num 2)]], Metadata := [] }

/-- Tc6 after deleting column "a": the column and the row field are gone. -/
def Tc6del : Table :=
  { Name := "T", Columns := [{ Key := "b" }],
    Rows := [[("b", Val.num 2)]], Metadata := [] }

/-- Witness for the amended C6: deleting column "a" from Tc6 leaves its row
without an "a" field and keeps the row count. -/
theorem C6_delete_column_cascade_witness :
    dictLookup [("b", Val.num 2)] "a" = none
    ∧ Tc6del.Rows.length = Tc6.Rows.length := by
  have h := (C6_delete_column_cascade Tc6 "a" (by decide)).2 Tc6del rfl
  exact ⟨h.2.2.2.1 [("b", Val.num 2)] (by decide), h.2.2.2.2.1⟩

/-- C7 counterexample: the claim quantifies over every columnKey matching
no column and promises a success result.  For the empty columnKey — which
matches no column of Tkeys — the source returns the validation error
"columnKey es requerido" (spec §7 lists the missing columnKey as a
ValidationError), not success. -/
theorem C7_update_column_counterexample :
    update_column Tkeys "" [("Label", Val.str "L")]
      = Except.error "columnKey es requerido"
    ∧ "" ∉ Tkeys.Columns.map Column.Key := by
  exact ⟨rfl, by decide⟩

/-- C7 (amended): for every existing table and every NON-EMPTY columnKey
matching no column's Key, update_column returns the table unchanged with a
success result; when a column matches, the supplied partial update is
merged into the first matching column in place, preserving its position in
the Columns order. -/
theorem C7_update_column_no_match_noop (t : Table) (key : String) (updates : Dict)
    (hk : key ≠ "") :
    (key ∉ t.Columns.map Column.Key → update_column t key updates = Except.ok t)
    ∧ (∀ (j : Nat) (hj : j < t.Columns.length),
        (t.Columns.get ⟨j, hj⟩).Key = key →
        (∀ m (hm : m < t.Columns.length), m < j → (t.Columns.get ⟨m, hm⟩).Key ≠ key) →
        ∀ t', update_column t key updates = Except.ok t' →
          t'.Columns.length = t.Columns.length
          ∧ t'.Columns[j]? = some (Column.merge (t.Columns.get ⟨j, hj⟩) updates)) := by
  constructor
  · intro hnm
    have hall : ∀ c ∈ t.Columns, c.Key ≠ key :=
      fun c hc he => hnm (List.mem_map.mpr ⟨c, hc, he⟩)
    simp only [update_column]
    rw [if_neg hk, updateColumnsList_no_match _ _ _ hall]
  · intro j hj hmatch hfirst t' ht'
    simp only [update_column] at ht'
    rw [if_neg hk] at ht'
    cases Except.ok.inj ht'
    refine ⟨updateColumnsList_length _ _ _, ?_⟩
    rw [updateColumnsList_first_match t.Columns key updates j hj hfirst hmatch j]
    simp

/-- A two-column table whose first column carries a Label attribute. -/
def Tc7 : Table :=
  { Name := "T",
    Columns := [{ Key := "a", attrs := [("Label", Val.str "old")] }, { Key := "b" }],
    Rows := [], Metadata := [] }

/-- Tc7 after merging Label = "L" into column "a". -/
def Tc7upd : Table :=
  { Name := "T",
    Columns := [{ Key := "a", attrs := [("Label", Val.str "L")] }, { Key := "b" }],
    Rows := [], Metadata := [] }

/-- Witness for the amended C7: a key matching no column of Tc7 is a no-op
returning the table itself, and updating column "a" replaces its Label in
place at position 0. -/
theorem C7_update_column_no_match_noop_witness :
    update_column Tc7 "zz" [("Label", Val.str "L")] = Except.ok Tc7
    ∧ Tc7upd.Columns[0]?
        = some (Column.merge { Key := "a", attrs := [("Label", Val.str "old")] }
            [("Label", Val.str "L")]) := by
  constructor
  · exact (C7_update_column_no_match_noop Tc7 "zz" [("Label", Val.str "L")]
      (by decide)).1 (by decide)
  · exact ((C7_update_column_no_match_noop Tc7 "a" [("Label", Val.str "L")]
      (by decide)).2 0 (by decide) rfl
      (fun m hm hlt => absurd hlt (Nat.not_lt_zero m)) Tc7upd rfl).2

/-- A table whose only column has the empty string as its Key. -/
def Tempty : Table :=
  { Name := "T", Columns := [{ Key := "" }], Rows := [], Metadata := [] }

/-- C9 counterexample: the claim quantifies over every update_column call
with a columnKey matching at least one column and promises that the first
matching column receives the merged updates.  With the empty columnKey on a
table whose column has Key "", the key matches a column, yet the source
rejects the call with the validation error and no column receives
anything. -/
theorem C9_update_column_frame_counterexample :
    update_column Tempty "" [("Label", Val.str "L")]
      = Except.error "columnKey es requerido"
    ∧ "" ∈ Tempty.Columns.map Column.Key := by
  exact ⟨rfl, by decide⟩

/-- C9 (amended): for every update_column call with a NON-EMPTY columnKey
whose first match is at position j, every column at a position other than j
is unchanged, the length (and hence order) of Columns is preserved, and
Rows, Name and Metadata are untouched. -/
theorem C9_update_column_frame (t : Table) (key : String) (updates : Dict)
    (hk : key ≠ "") (j : Nat) (hj : j < t.Columns.length)
    (hmatch : (t.Columns.get ⟨j, hj⟩).Key = key)
    (hfirst : ∀ m (hm : m < t.Columns.length), m < j → (t.Columns.get ⟨m, hm⟩).Key ≠ key) :
    ∀ t', update_column t key updates = Except.ok t' →
      t'.Rows = t.Rows ∧ t'.Name = t.Name ∧ t'.Metadata = t.Metadata
      ∧ t'.Columns.length = t.Columns.length
      ∧ (∀ m : Nat, m ≠ j → t'.Columns[m]? = t.Columns[m]?) := by
  intro t' ht'
  simp only [update_column] at ht'
  rw [if_neg hk] at ht'
  cases Except.ok.inj ht'
  refine ⟨rfl, rfl, rfl, updateColumnsList_length _ _ _, ?_⟩
  intro m hm
  rw [updateColumnsList_first_match t.Columns key updates j hj hfirst hmatch m,
    if_neg hm]

/-- Witness for the amended C9: updating column "a" of Tc7 leaves the
column at position 1 and the Rows untouched. -/
theorem C9_update_column_frame_witness :
    Tc7upd.Columns[1]? = Tc7.Columns[1]? ∧ Tc7upd.Rows = Tc7.Rows := by
  have h := C9_update_column_frame Tc7 "a" [("Label", Val.str "L")] (by decide)
    0 (by decide) rfl (fun m hm hlt => absurd hlt (Nat.not_lt_zero m)) Tc7upd rfl
  exact ⟨h.2.2.2.2 1 (by decide), h.1⟩

/-- C8: on any existing table, add_row rejects exactly the empty/absent row
record (Python falsiness of the default {}), and any non-empty keyed record
is appended unchanged at the end of Rows with Name, Columns and Metadata
untouched — the universal quantification over the record shows no key of
the record is validated against the table's Columns. -/
theorem C8_add_row_empty_check (t : Table) (row : Dict) :
    (add_row t row = Except.error "row son requeridos" ↔ row = [])
    ∧ (row ≠ [] → ∃ t', add_row t row = Except.ok t')
    ∧ (∀ t', add_row t row = Except.ok t' →
        t'.Rows = t.Rows ++ [row] ∧ t'.Name = t.Name ∧ t'.Columns = t.Columns
        ∧ t'.Metadata = t.Metadata) := by
  refine ⟨⟨?_, ?_⟩, ?_, ?_⟩
  · intro h
    by_contra hne
    simp only [add_row] at h
    rw [if_neg hne] at h
    exact absurd h (by simp)
  · intro h
    simp [add_row, h]
  · intro h
    exact ⟨_, by simp only [add_row]; rw [if_neg h]⟩
  · intro t' ht'
    by_cases h : row = []
    · simp [add_row, h] at ht'
    · simp only [add_row] at ht'
      rw [if_neg h] at ht'
      cases Except.ok.inj ht'
      exact ⟨rfl, rfl, rfl, rfl⟩

/-- T2 after appending a row whose only key "zzz" is not a column key. -/
def Tc8 : Table :=
  { Name := "T", Columns := [{ Key := "a" }],
    Rows := [[("a", Val.num 1)], [("a", Val.num 2)], [("zzz", Val.null)]],
    Metadata := [] }

/-- Witness for C8: the empty record is rejected, and a record under the
key "zzz" — absent from T2's columns — is appended unchanged. -/
theorem C8_add_row_empty_check_witness :
    add_row T2 [] = Except.error "row son requeridos"
    ∧ Tc8.Rows = T2.Rows ++ [[("zzz", Val.null)]]
    ∧ "zzz" ∉ T2.Columns.map Column.Key := by
  refine ⟨?_, ?_, by decide⟩
  · exact (C8_add_row_empty_check T2 []).1.mpr rfl
  · exact ((C8_add_row_empty_check T2 [("zzz", Val.null)]).2.2 Tc8 rfl).1

/-- C10: for every column list with pairwise-distinct Keys and every value
list, the keys of the Mapper's output are exactly the columns' Keys; and
consequently every row of a freshly created table carries a field under a
key if and only if that key is one of the table's column Keys (invariant I2
holds at creation). -/
theorem C10_row_keys_match_columns :
    (∀ (columns : List Column) (values : List Val),
        (columns.map Column.Key).Nodup →
        (map_row_values columns values).map Prod.fst = columns.map Column.Key)
    ∧ (∀ (req : CreateReq) (t : Table),
        (req.Columns.map Column.Key).Nodup →
        create_table req = Except.ok t →
        ∀ r ∈ t.Rows, ∀ k : String,
          (dictLookup r k).isSome ↔ k ∈ t.Columns.map Column.Key) := by
  constructor
  · exact fun columns values h => map_row_values_keys columns values h
  · intro req t hnd hok r hr k
    simp only [create_table] at hok
    by_cases hcond : req.Name.getD "" = "" ∨ req.Columns = []
    · rw [if_pos hcond] at hok
      exact absurd hok (by simp)
    · rw [if_neg hcond] at hok
      cases Except.ok.inj hok
      obtain ⟨vs, hvs, rfl⟩ := List.mem_map.mp hr
      rw [dictLookup_isSome_iff, map_row_values_keys _ _ hnd]

/-- The create request of the C10 witness. -/
def reqC10 : CreateReq :=
  { Name := some "T", Columns := [{ Key := "x" }], Rows := [[Val.str "true"]] }

/-- The table created from reqC10. -/
def Tc10 : Table :=
  { Name := "T", Columns := [{ Key := "x" }],
    Rows := [[("x", Val.bool true)]], Metadata := [] }

/-- Witness for C10 on a concrete creation: the mapped row's keys are the
column keys, and the created row carries "x" (a column key) and the
membership equivalence holds. -/
theorem C10_row_keys_match_columns_witness :
    (map_row_values colsABCD valsMix).map Prod.fst = colsABCD.map Column.Key
    ∧ ((dictLookup [("x", Val.bool true)] "x").isSome
        ↔ "x" ∈ Tc10.Columns.map Column.Key) := by
  constructor
  · exact C10_row_keys_match_columns.1 colsABCD valsMix (by decide)
  · exact C10_row_keys_match_columns.2 reqC10 Tc10 (by decide) rfl
      [("x", Val.bool true)] (by decide) "x"
